import Mathlib

/-!
# nebula-back: the Kafka replication layer

A shallow embedding of the Kafka-facing code of the two services of the
repository (`curso` and `pessoa`):

* `cmd/server/start_kafka.go`  (`ensureKafkaTopics`, `KafkaConsumer.StartConsuming`,
  `startKafkaConsumers`),
* `cmd/server/main.go`         (the broker list read from `KAFKA_BROKERS`),
* `internal/infra/messaging/kafka_producer.go` (`NewKafkaProducer`, `PublishMessage`),
* `internal/infra/messaging/kafka/kafka_handle_user.go` (`CreateOrUpdatePessoa`).

Calls that leave the repository (the kafka-go client, `encoding/json`, the use
case behind the handler) are effects on an explicit world `σ`: every such call
is a field of an environment structure, takes the world and returns its result
together with the next world.  Each model also returns the list of external calls
it made, in the order it made them, so that statements such as "nothing else
is attempted" can be read off the result.  `log.Printf` lines are not modelled.
-/

namespace NebulaBack

/-! ## Go values -/

/-- A Go `error` value: `code` stands for the dynamic identity of the value,
`Error` is the text returned by its `Error()` method. -/
structure GoError where
  code : Nat
  Error : String
  deriving DecidableEq, Repr

/-- Go byte slices. -/
abbrev Bytes := List UInt8

/-- The conversion `[]byte(s)` of a Go string. -/
def bytesOf (s : String) : Bytes := s.toUTF8.data.toList

/-! ## The parts of package `strings` used by the repository

Go strings are byte strings; they are modelled as Lean strings.  The separator
passed to `Split` is always the one-byte string `","`, for which Go takes its
single-byte paths (`IndexByte`, byte counting); `Split` is modelled on that
path, with the separator as a character. -/

namespace strings

/-- Go `strings.Index`: position of the first occurrence of `substr` in `s`,
`none` standing for `-1`. -/
def Index (s substr : List Char) : Option Nat :=
  if substr.isPrefixOf s then some 0
  else match s with
    | [] => none
    | _ :: t => (Index t substr).map (· + 1)

/-- Go `strings.Contains(s, substr)`, which is `Index(s, substr) >= 0`. -/
def Contains (s substr : String) : Bool := (Index s.data substr.data).isSome

/-- Go `strings.IndexByte`: position of the first `c` in `s`. -/
def IndexByte (s : List Char) (c : Char) : Option Nat :=
  match s with
  | [] => none
  | x :: t => if x = c then some 0 else (IndexByte t c).map (· + 1)

/-- Go `strings.Count(s, sep)` for a one-byte `sep`: the number of occurrences. -/
def Count (s : List Char) (c : Char) : Nat :=
  match s with
  | [] => 0
  | x :: t => if x = c then Count t c + 1 else Count t c

/-- The loop `for i < n` of Go `genSplit`; the first argument is `n - i`. -/
def genSplitLoop (sep : Char) : Nat → List Char → List (List Char)
  | 0, s => [s]
  | k + 1, s =>
    match IndexByte s sep with
    | none => [s]
    | some m => s.take m :: genSplitLoop sep k (s.drop (m + 1))

/-- Go `genSplit(s, sep, 0, -1)` for a one-byte separator. -/
def genSplit (s : List Char) (sep : Char) : List (List Char) :=
  let n := Count s sep + 1
  let n := if n > s.length + 1 then s.length + 1 else n
  genSplitLoop sep (n - 1) s

/-- Go `strings.Split(s, sep)` for a one-byte separator. -/
def Split (s : String) (sep : Char) : List String :=
  (genSplit s.data sep).map String.mk

end strings

/-! ## The kafka-go client, as seen by the repository -/

/-- An open connection (`*kafka.Conn`). -/
structure Conn where
  id : Nat
  deriving DecidableEq, Repr

/-- The type `kafka.Broker`, as returned by `Conn.Controller`. -/
structure Broker where
  Host : String
  Port : Int
  ID : Int
  deriving DecidableEq, Repr

/-- The type `kafka.TopicConfig`. -/
structure TopicConfig where
  Topic : String
  NumPartitions : Int
  ReplicationFactor : Int
  deriving DecidableEq, Repr

/-- The type `kafka.Message` (the fields the repository touches). -/
structure Message where
  Key : Bytes
  Value : Bytes
  deriving DecidableEq, Repr

/-- The administrative calls of kafka-go used by `ensureKafkaTopics`.
`CreateTopics` is variadic in Go and always called with one configuration. -/
structure KafkaAdmin (σ : Type) where
  Dial : String → String → σ → Except GoError Conn × σ
  Controller : Conn → σ → Except GoError Broker × σ
  CreateTopics : Conn → TopicConfig → σ → Option GoError × σ
  Close : Conn → σ → Option GoError × σ

/-- One external call made by `ensureKafkaTopics`, with what it returned. -/
inductive AdminEvent where
  | dial (network address : String) (res : Except GoError Conn)
  | controller (conn : Conn) (res : Except GoError Broker)
  | createTopics (conn : Conn) (cfg : TopicConfig) (res : Option GoError)
  | close (conn : Conn)

/-- How a Go function call ends: it returns its `error` result, or it panics
(here: index out of range). -/
inductive Outcome where
  | panicked
  | returned (err : Option GoError)
  deriving DecidableEq, Repr

/-- State of a run of the loop of `ensureKafkaTopics`: how it ended, the world,
the calls made (oldest first) and the connections whose `Close` has been
deferred (oldest first). -/
structure AdminRun (σ : Type) where
  result : Outcome
  world : σ
  trace : List AdminEvent
  deferred : List Conn

/-- Put the calls `evs` and the deferred closes `ds` of the start of an iteration
before the rest of the run. -/
def AdminRun.after {σ : Type} (evs : List AdminEvent) (ds : List Conn) (r : AdminRun σ) :
    AdminRun σ :=
  ⟨r.result, r.world, evs ++ r.trace, ds ++ r.deferred⟩

/-- The two services of the repository. -/
inductive Service where
  | curso
  | pessoa
  deriving DecidableEq, Repr

/-- The literal `topics` of `ensureKafkaTopics` in each service. -/
def topicsOf : Service → List String
  | .curso =>
    ["curso.saved", "curso.deleted", "pessoa.saved", "pessoa.deleted",
     "aluno.saved", "aluno.deleted", "modulo.saved", "modulo.deleted"]
  | .pessoa => ["pessoa.saved", "pessoa.deleted"]

/-- The text looked for in the error of `CreateTopics`. -/
def alreadyExistsText : String := "Topic with this name already exists"

/-- The loop `for _, topic := range topics` of `ensureKafkaTopics`. -/
def ensureLoop {σ : Type} (net : KafkaAdmin σ) (brokers : List String) :
    List String → σ → AdminRun σ
  | [], w => ⟨.returned none, w, [], []⟩
  | topic :: rest, w =>
    match brokers[0]? with
    | none => ⟨.panicked, w, [], []⟩
    | some addr0 =>
      match net.Dial "tcp" addr0 w with
      | (.error err, w1) =>
        ⟨.returned (some err), w1, [.dial "tcp" addr0 (.error err)], []⟩
      | (.ok conn, w1) =>
        match net.Controller conn w1 with
        | (.error err, w2) =>
          ⟨.returned (some err), w2,
            [.dial "tcp" addr0 (.ok conn), .controller conn (.error err)], [conn]⟩
        | (.ok controller, w2) =>
          let address := controller.Host ++ ":" ++ toString controller.Port
          match net.Dial "tcp" address w2 with
          | (.error err, w3) =>
            ⟨.returned (some err), w3,
              [.dial "tcp" addr0 (.ok conn), .controller conn (.ok controller),
               .dial "tcp" address (.error err)], [conn]⟩
          | (.ok conn2, w3) =>
            let topicConfigs : TopicConfig := ⟨topic, 1, 1⟩
            match net.CreateTopics conn2 topicConfigs w3 with
            | (some err, w4) =>
              if strings.Contains err.Error alreadyExistsText then
                (ensureLoop net brokers rest w4).after
                  [.dial "tcp" addr0 (.ok conn), .controller conn (.ok controller),
                   .dial "tcp" address (.ok conn2),
                   .createTopics conn2 topicConfigs (some err)] [conn, conn2]
              else
                ⟨.returned (some err), w4,
                  [.dial "tcp" addr0 (.ok conn), .controller conn (.ok controller),
                   .dial "tcp" address (.ok conn2),
                   .createTopics conn2 topicConfigs (some err)], [conn, conn2]⟩
            | (none, w4) =>
              (ensureLoop net brokers rest w4).after
                [.dial "tcp" addr0 (.ok conn), .controller conn (.ok controller),
                 .dial "tcp" address (.ok conn2),
                 .createTopics conn2 topicConfigs none] [conn, conn2]

/-- Run the deferred `conn.Close()` calls, in the order given; the error each
returns is dropped, as a `defer` statement drops it. -/
def runDeferred {σ : Type} (net : KafkaAdmin σ) : List Conn → σ → σ × List AdminEvent
  | [], w => (w, [])
  | c :: cs, w =>
    let r := runDeferred net cs (net.Close c w).2
    (r.1, .close c :: r.2)

/-- What a call of `ensureKafkaTopics` leaves behind. -/
structure AdminResult (σ : Type) where
  result : Outcome
  world : σ
  trace : List AdminEvent

/-- The function `ensureKafkaTopics(kafka_brokers)` of service `svc`: split the
broker string, run the loop, then run the deferred closes, last deferred first. -/
def ensureKafkaTopics {σ : Type} (svc : Service) (net : KafkaAdmin σ)
    (kafka_brokers : String) (w : σ) : AdminResult σ :=
  let brokers := strings.Split kafka_brokers ','
  let r := ensureLoop net brokers (topicsOf svc) w
  let d := runDeferred net r.deferred.reverse r.world
  ⟨r.result, d.1, r.trace ++ d.2⟩

/-! ## Reading the trace of `ensureKafkaTopics` -/

/-- The error with which a call makes `ensureKafkaTopics` give up, if it does:
any failed dial or controller lookup, and a failed create-topic whose message
does not contain `alreadyExistsText`. -/
def AdminEvent.abortError : AdminEvent → Option GoError
  | .dial _ _ (.error e) => some e
  | .controller _ (.error e) => some e
  | .createTopics _ _ (some e) =>
    if strings.Contains e.Error alreadyExistsText then none else some e
  | _ => none

/-- The topic a create-topic call asks for. -/
def AdminEvent.topic? : AdminEvent → Option String
  | .createTopics _ cfg _ => some cfg.Topic
  | _ => none

/-- The topics for which create-topic was called, in call order. -/
def attemptedTopics (tr : List AdminEvent) : List String := tr.filterMap AdminEvent.topic?

/-- The connection a successful dial has opened. -/
def AdminEvent.opened? : AdminEvent → Option Conn
  | .dial _ _ (.ok conn) => some conn
  | _ => none

/-- The connection a close call has closed. -/
def AdminEvent.closed? : AdminEvent → Option Conn
  | .close conn => some conn
  | _ => none

/-- The connections opened in a trace, in the order they were opened. -/
def openedConns (tr : List AdminEvent) : List Conn := tr.filterMap AdminEvent.opened?

/-- The connections closed in a trace, in the order they were closed. -/
def closedConns (tr : List AdminEvent) : List Conn := tr.filterMap AdminEvent.closed?

/-- The two ways the loop can end on `topics`: every call was accepted and
create-topic was called for every topic in turn, or the last call is the first
one that was not accepted and its error is the result. -/
def LoopEnds {σ : Type} (r : AdminRun σ) (topics : List String) : Prop :=
  (r.result = .returned none ∧ (∀ ev ∈ r.trace, ev.abortError = none) ∧
    attemptedTopics r.trace = topics) ∨
  (∃ e pre ev, r.result = .returned (some e) ∧ r.trace = pre ++ [ev] ∧
    ev.abortError = some e ∧ (∀ x ∈ pre, x.abortError = none) ∧
    attemptedTopics r.trace <+: topics)

/-! ## A broker on which provisioning is repeated

The idempotence property is stated over a broker on which dialing and the
controller lookup succeed, creating an absent topic adds it, and creating a
topic that is present fails with the "already exists" error. -/

/-- State of that broker: the topics it holds and the number of connections it
has handed out. -/
structure BrokerState where
  topics : List String
  opened : Nat
  deriving DecidableEq, Repr

/-- The broker itself; `ctrl` is the controller it reports and `existsErr` the
error of creating a topic that is present. -/
def modelBroker (ctrl : Broker) (existsErr : GoError) : KafkaAdmin BrokerState where
  Dial := fun _ _ s => (.ok ⟨s.opened⟩, { s with opened := s.opened + 1 })
  Controller := fun _ s => (.ok ctrl, s)
  CreateTopics := fun _ cfg s =>
    if cfg.Topic ∈ s.topics then (some existsErr, s)
    else (none, { s with topics := cfg.Topic :: s.topics })
  Close := fun _ s => (none, s)

/-! ## `main.go`: the broker list -/

/-- The list `kafka_brokers_list` of `main`, computed from the value of
`KAFKA_BROKERS`. -/
def kafka_brokers_list (kafka_brokers : String) : List String :=
  strings.Split kafka_brokers ','

/-! ## `kafka_producer.go` -/

/-- The fields of `kafka.WriterConfig` set by the repository. -/
structure WriterConfig where
  Brokers : List String
  Topic : String
  deriving DecidableEq, Repr

/-- The struct `KafkaProducer`; `W` is the type of `*kafka.Writer`. -/
structure KafkaProducer (W : Type) where
  Writer : W

/-- The calls of kafka-go used by the producer; `C` is `context.Context`.
`NewWriter` is what `kafka.NewWriter` builds from a configuration it accepts;
the configurations it rejects are those of `kafkaNewWriter`. -/
structure WriterEnv (W C σ : Type) where
  NewWriter : WriterConfig → σ → W × σ
  WriteMessages : W → C → List Message → σ → Option GoError × σ
  Close : W → σ → Option GoError × σ

/-- One external call made by the producer code, with what it returned. -/
inductive ProducerEvent (W C : Type) where
  | newWriter (cfg : WriterConfig) (writer : Option W)
  | writeMessages (writer : W) (ctx : C) (msgs : List Message) (res : Option GoError)
  | close (writer : W) (res : Option GoError)

/-- A call that may end the process through `log.Fatal` (which prints its
argument and exits with status 1) or panic with a message instead of
returning. -/
inductive OrFatal (α : Type) where
  | fatal (msg : String)
  | panicked (msg : String)
  | value (a : α)

/-- The message with which `kafka.NewWriter` panics on a configuration that
lists no broker. -/
def noBrokersText : String := "cannot create a kafka writer with an empty list of brokers"

/-- Go `kafka.NewWriter(config)`: kafka-go validates the configuration before
anything else and panics on one whose broker list is empty or nil (`none`
here); the other configurations the repository builds are accepted, and the
writer is then the one the environment builds. -/
def kafkaNewWriter {W C σ : Type} (env : WriterEnv W C σ) (config : WriterConfig) (w : σ) :
    Option (W × σ) :=
  if config.Brokers = [] then none else some (env.NewWriter config w)

/-- What a producer call leaves behind. -/
structure ProducerRun (α W C σ : Type) where
  result : α
  world : σ
  trace : List (ProducerEvent W C)

/-- The function `NewKafkaProducer(brokers, topic)`. -/
def NewKafkaProducer {W C σ : Type} (env : WriterEnv W C σ) (brokers : List String)
    (topic : String) (w : σ) : ProducerRun (OrFatal (KafkaProducer W)) W C σ :=
  if topic = "" then
    ⟨.fatal "Kafka topic must be specified", w, []⟩
  else
    match kafkaNewWriter env ⟨brokers, topic⟩ w with
    | none => ⟨.panicked noBrokersText, w, [.newWriter ⟨brokers, topic⟩ none]⟩
    | some (writer, w1) => ⟨.value ⟨writer⟩, w1, [.newWriter ⟨brokers, topic⟩ (some writer)]⟩

/-- The method `(*KafkaProducer).PublishMessage(ctx, key, value)`. -/
def KafkaProducer.PublishMessage {W C σ : Type} (env : WriterEnv W C σ)
    (p : KafkaProducer W) (ctx : C) (key value : String) (w : σ) :
    ProducerRun (Option GoError) W C σ :=
  let msg : Message := ⟨bytesOf key, bytesOf value⟩
  match env.WriteMessages p.Writer ctx [msg] w with
  | (some err, w1) => ⟨some err, w1, [.writeMessages p.Writer ctx [msg] (some err)]⟩
  | (none, w1) => ⟨none, w1, [.writeMessages p.Writer ctx [msg] none]⟩

/-- The method `(*KafkaProducer).Close()`. -/
def KafkaProducer.Close {W C σ : Type} (env : WriterEnv W C σ) (p : KafkaProducer W)
    (w : σ) : ProducerRun (Option GoError) W C σ :=
  match env.Close p.Writer w with
  | (res, w1) => ⟨res, w1, [.close p.Writer res]⟩

/-! ## `kafka_handle_user.go` -/

/-- The struct `PessoaKafkaHandlers`; `Repo` is `repository.PessoaRepositoryInterface`. -/
structure PessoaKafkaHandlers (Repo : Type) where
  PessoaRepository : Repo

/-- The constructor `NewPessoaKafkaHandlers`. -/
def NewPessoaKafkaHandlers {Repo : Type} (PessoaRepository : Repo) :
    PessoaKafkaHandlers Repo :=
  ⟨PessoaRepository⟩

/-- What the handler calls: `json.Unmarshal` into a `dto.PessoaInputDTO` (type
`D`), a function of the bytes alone, and the use case of package `usecase`
(type `U`, output `O`), whose calls act on the world, the repository included. -/
structure HandlerEnv (Repo D U O σ : Type) where
  Unmarshal : Bytes → Except GoError D
  NewSavePessoaUseCase : Repo → σ → U × σ
  ExecuteCreateOrUpdatePessoa : U → D → σ → (O × Option GoError) × σ

/-- One use-case call made by the handler. -/
inductive HandlerEvent (Repo D U : Type) where
  | newUseCase (repo : Repo)
  | execute (uc : U) (input : D)

/-- What a handler call leaves behind. -/
structure HandlerRun (Repo D U σ : Type) where
  result : Option GoError
  world : σ
  trace : List (HandlerEvent Repo D U)

/-- The method `(*PessoaKafkaHandlers).CreateOrUpdatePessoa(m)`. -/
def PessoaKafkaHandlers.CreateOrUpdatePessoa {Repo D U O σ : Type}
    (env : HandlerEnv Repo D U O σ) (h : PessoaKafkaHandlers Repo) (m : Message) (w : σ) :
    HandlerRun Repo D U σ :=
  match env.Unmarshal m.Value with
  | .error err => ⟨some err, w, []⟩
  | .ok inputDto =>
    match env.NewSavePessoaUseCase h.PessoaRepository w with
    | (uc, w1) =>
      match env.ExecuteCreateOrUpdatePessoa uc inputDto w1 with
      | ((_, some err), w2) =>
        ⟨some err, w2, [.newUseCase h.PessoaRepository, .execute uc inputDto]⟩
      | ((_, none), w2) =>
        ⟨none, w2, [.newUseCase h.PessoaRepository, .execute uc inputDto]⟩

/-! ## `start_kafka.go` (curso): the consumers -/

/-- The struct `KafkaConsumer`; the handler acts on the world. -/
structure KafkaConsumer (σ : Type) where
  topic : String
  partition : Int
  brokers : List String
  handler : Message → σ → Option GoError × σ

/-- The fields of `kafka.ReaderConfig` set by the repository. -/
structure ReaderConfig where
  Brokers : List String
  Topic : String
  Partition : Int
  MinBytes : Int
  MaxBytes : Int
  deriving DecidableEq, Repr

/-- The calls of kafka-go used by the read loop; `R` is `*kafka.Reader`, and the
number passed to `ReadMessage` is the timeout of its context, in nanoseconds. -/
structure ReaderEnv (R σ : Type) where
  NewReader : ReaderConfig → σ → R × σ
  ReadMessage : R → Nat → σ → Except GoError Message × σ

/-- One call made by the read loop: to the reader, with what it returned, or to
the handler of the consumer. -/
inductive ConsumerEvent (R : Type) where
  | newReader (cfg : ReaderConfig) (reader : R)
  | read (reader : R) (timeout : Nat) (res : Except GoError Message)
  | handle (msg : Message)

/-- The timeout `10*time.Second`, in nanoseconds. -/
def readTimeout : Nat := 10 * 1000000000

/-- The first `n` iterations of the loop `for { ... }` of `StartConsuming`.  The
value returned by the handler is dropped, as in the statement `kc.handler(msg)`. -/
def consumeLoop {R σ : Type} (env : ReaderEnv R σ) (kc : KafkaConsumer σ) (reader : R) :
    Nat → σ → σ × List (ConsumerEvent R)
  | 0, w => (w, [])
  | n + 1, w =>
    match env.ReadMessage reader readTimeout w with
    | (.error err, w1) =>
      let r := consumeLoop env kc reader n w1
      (r.1, .read reader readTimeout (.error err) :: r.2)
    | (.ok msg, w1) =>
      let w2 := (kc.handler msg w1).2
      let r := consumeLoop env kc reader n w2
      (r.1, .read reader readTimeout (.ok msg) :: .handle msg :: r.2)

/-- The method `(*KafkaConsumer).StartConsuming(wg, broker)`, observed for the
first `n` iterations of its loop (the loop has no exit, so the deferred
`wg.Done()` and `cancel()` never run). -/
def KafkaConsumer.StartConsuming {R σ : Type} (env : ReaderEnv R σ) (kc : KafkaConsumer σ)
    (broker : String) (n : Nat) (w : σ) : σ × List (ConsumerEvent R) :=
  let cfg : ReaderConfig := ⟨[broker], kc.topic, kc.partition, 10000, 10000000⟩
  match env.NewReader cfg w with
  | (reader, w1) =>
    let r := consumeLoop env kc reader n w1
    (r.1, .newReader cfg reader :: r.2)

/-- What `startKafkaConsumers` has done when it reaches `wg.Wait()`: the counter
of the wait group and the goroutines started, oldest first, each a call
`consumer.StartConsuming(&wg, broker)`. -/
structure PoolState (σ : Type) where
  wg : Nat
  launched : List (KafkaConsumer σ × String)

/-- The function `startKafkaConsumers(consumers)` up to `wg.Wait()`: the two
nested `range` loops, each iteration doing `wg.Add(1)` and one `go` statement. -/
def startKafkaConsumers {σ : Type} (consumers : List (KafkaConsumer σ)) : PoolState σ :=
  consumers.foldl
    (fun st consumer =>
      consumer.brokers.foldl
        (fun st broker => ⟨st.wg + 1, st.launched ++ [(consumer, broker)]⟩) st)
    ⟨0, []⟩

/-! ## Reading the trace of the read loop -/

/-- The outcome of a read, for a read event. -/
def ConsumerEvent.readOutcome? {R : Type} : ConsumerEvent R → Option (Except GoError Message)
  | .read _ _ res => some res
  | _ => none

/-- The message handed to the handler, for a handler call. -/
def ConsumerEvent.handled? {R : Type} : ConsumerEvent R → Option Message
  | .handle msg => some msg
  | _ => none

/-- The message of a successful read. -/
def readMessage? : Except GoError Message → Option Message
  | .ok msg => some msg
  | .error _ => none

/-- The calls the loop makes around one read with outcome `res`: the read, and
the handler call when the read gave a message. -/
def callsOfRead {R : Type} (reader : R) (res : Except GoError Message) :
    List (ConsumerEvent R) :=
  match res with
  | .ok msg => [.read reader readTimeout (.ok msg), .handle msg]
  | .error err => [.read reader readTimeout (.error err)]

/-- The outcomes of the reads of a trace, in the order the reader delivered them. -/
def readsOf {R : Type} (tr : List (ConsumerEvent R)) : List (Except GoError Message) :=
  tr.filterMap ConsumerEvent.readOutcome?

/-- The messages passed to the handler in a trace, in call order. -/
def handledOf {R : Type} (tr : List (ConsumerEvent R)) : List Message :=
  tr.filterMap ConsumerEvent.handled?

/-- The reader configuration built by `StartConsuming`. -/
def readerConfigOf {σ : Type} (kc : KafkaConsumer σ) (broker : String) : ReaderConfig :=
  ⟨[broker], kc.topic, kc.partition, 10000, 10000000⟩

/-! ## Environments that keep a log of the calls they receive

To say that a trace returned by a model lists calls that were really made, the
environment is given a log of its own: the world becomes the world and a log,
and every call does what it did before and then writes itself, with what it
returned, at the end of the log.  Whatever the log holds after a run was put
there by a call to the environment. -/

/-- The broker `net`, logging every call it receives. -/
def KafkaAdmin.recorded {σ : Type} (net : KafkaAdmin σ) : KafkaAdmin (σ × List AdminEvent) where
  Dial := fun network address s =>
    ((net.Dial network address s.1).1,
      ((net.Dial network address s.1).2,
        s.2 ++ [.dial network address (net.Dial network address s.1).1]))
  Controller := fun conn s =>
    ((net.Controller conn s.1).1,
      ((net.Controller conn s.1).2, s.2 ++ [.controller conn (net.Controller conn s.1).1]))
  CreateTopics := fun conn cfg s =>
    ((net.CreateTopics conn cfg s.1).1,
      ((net.CreateTopics conn cfg s.1).2,
        s.2 ++ [.createTopics conn cfg (net.CreateTopics conn cfg s.1).1]))
  Close := fun conn s =>
    ((net.Close conn s.1).1, ((net.Close conn s.1).2, s.2 ++ [.close conn]))

/-- The reader environment `env`, logging every call it receives. -/
def ReaderEnv.recorded {R σ : Type} (env : ReaderEnv R σ) :
    ReaderEnv R (σ × List (ConsumerEvent R)) where
  NewReader := fun cfg s =>
    ((env.NewReader cfg s.1).1,
      ((env.NewReader cfg s.1).2, s.2 ++ [.newReader cfg (env.NewReader cfg s.1).1]))
  ReadMessage := fun reader timeout s =>
    ((env.ReadMessage reader timeout s.1).1,
      ((env.ReadMessage reader timeout s.1).2,
        s.2 ++ [.read reader timeout (env.ReadMessage reader timeout s.1).1]))

/-- The consumer `kc` with a handler that does what the handler of `kc` does and
logs the message it was called with. -/
def KafkaConsumer.recorded {σ : Type} (R : Type) (kc : KafkaConsumer σ) :
    KafkaConsumer (σ × List (ConsumerEvent R)) :=
  ⟨kc.topic, kc.partition, kc.brokers,
    fun msg s => ((kc.handler msg s.1).1, ((kc.handler msg s.1).2, s.2 ++ [.handle msg]))⟩

/-! ## Small environments on which the statements are exercised -/

/-- World of `redialRefusedAdmin`: the number of dials made so far and the
connections that are open. -/
structure DialWorld where
  dials : Nat
  openConns : List Conn
  deriving DecidableEq, Repr

/-- A broker for `ensureKafkaTopics` that keeps track of its open connections:
a dial opens the connection numbered by the count of dials, except that from
the fourth dial on the controller address `kafka:9092` refuses; a close takes
the connection off the open ones; the controller lookup and create-topic
succeed. -/
def redialRefusedAdmin : KafkaAdmin DialWorld where
  Dial := fun _ address w =>
    if address = "kafka:9092" ∧ 3 ≤ w.dials then
      (.error ⟨6, "connection refused"⟩, ⟨w.dials + 1, w.openConns⟩)
    else (.ok ⟨w.dials⟩, ⟨w.dials + 1, ⟨w.dials⟩ :: w.openConns⟩)
  Controller := fun _ w => (.ok ⟨"kafka", 9092, 1⟩, w)
  CreateTopics := fun _ _ w => (none, w)
  Close := fun conn w => (none, ⟨w.dials, w.openConns.erase conn⟩)

/-- A writer environment: a writer is its configuration, the world is the list
of messages the broker has received, and a write through a writer that has no
broker fails. -/
def sampleWriterEnv : WriterEnv WriterConfig Unit (List Message) where
  NewWriter := fun cfg w => (cfg, w)
  WriteMessages := fun writer _ msgs w =>
    if writer.Brokers = [] then (some ⟨1, "no broker"⟩, w) else (none, w ++ msgs)
  Close := fun _ w => (none, w)

/-- A handler environment: the DTO is the value itself, decoding fails on the
empty value (for which `encoding/json` reports "unexpected end of JSON input"),
the use case is its repository name, and create-or-update stores the DTO in the
world unless it is already there, in which case it fails. -/
def sampleHandlerEnv : HandlerEnv String Bytes String Unit (List Bytes) where
  Unmarshal := fun value =>
    if value = [] then .error ⟨2, "unexpected end of JSON input"⟩ else .ok value
  NewSavePessoaUseCase := fun repo w => (repo, w)
  ExecuteCreateOrUpdatePessoa := fun _ input w =>
    if input ∈ w then (((), some ⟨3, "duplicate key"⟩), w) else (((), none), input :: w)

/-- World of `sampleReaderEnv`: the read outcomes still to be delivered and the
messages the handler has stored. -/
structure SampleWorld where
  pending : List (Except GoError Message)
  stored : List Message

/-- A reader environment: each read delivers the next pending outcome, and
times out when none is left. -/
def sampleReaderEnv : ReaderEnv Unit SampleWorld where
  NewReader := fun _ w => ((), w)
  ReadMessage := fun _ _ w =>
    match w.pending with
    | [] => (.error ⟨4, "context deadline exceeded"⟩, w)
    | r :: rest => (r, ⟨rest, w.stored⟩)

/-- A handler that stores the message and reports no error. -/
def storeHandler (msg : Message) (w : SampleWorld) : Option GoError × SampleWorld :=
  (none, ⟨w.pending, w.stored ++ [msg]⟩)

/-- A handler that stores the message and reports an error all the same. -/
def storeAndFailHandler (msg : Message) (w : SampleWorld) : Option GoError × SampleWorld :=
  (some ⟨5, "handler failed"⟩, ⟨w.pending, w.stored ++ [msg]⟩)

/-! # Theorems -/

/-! ## `strings.Split` -/

namespace strings

theorem Count_eq_count (s : List Char) (c : Char) : Count s c = s.count c := by
  induction s with
  | nil => rfl
  | cons x t ih =>
    by_cases h : x = c
    · subst h; simp [Count, ih]
    · have h2 : (x == c) = false := by simpa using h
      simp [Count, h, ih, List.count_cons, h2]

theorem Count_le_length (s : List Char) (c : Char) : Count s c ≤ s.length := by
  rw [Count_eq_count]; exact List.count_le_length c s

theorem IndexByte_none (s : List Char) (c : Char) (h : IndexByte s c = none) :
    Count s c = 0 := by
  induction s with
  | nil => rfl
  | cons x t ih =>
    by_cases hx : x = c
    · simp [IndexByte, hx] at h
    · simp [IndexByte, hx] at h
      simp [Count, hx, ih h]

theorem IndexByte_some (s : List Char) (c : Char) (m : Nat) (h : IndexByte s c = some m) :
    Count s c = Count (s.drop (m + 1)) c + 1 := by
  induction s generalizing m with
  | nil => simp [IndexByte] at h
  | cons x t ih =>
    by_cases hx : x = c
    · simp [IndexByte, hx] at h
      subst h
      simp [Count, hx]
    · simp [IndexByte, hx] at h
      obtain ⟨k, hk, rfl⟩ := h
      simp [Count, hx, ih k hk]

theorem genSplitLoop_length (c : Char) (k : Nat) (s : List Char) (h : Count s c ≤ k) :
    (genSplitLoop c k s).length = Count s c + 1 := by
  induction k generalizing s with
  | zero =>
    have h0 : Count s c = 0 := Nat.le_zero.mp h
    simp [genSplitLoop, h0]
  | succ k ih =>
    cases hi : IndexByte s c with
    | none => simp [genSplitLoop, hi, IndexByte_none s c hi]
    | some m =>
      have hc := IndexByte_some s c m hi
      have hk : Count (s.drop (m + 1)) c ≤ k := by omega
      simp [genSplitLoop, hi, ih _ hk, hc]

theorem genSplit_length (s : List Char) (c : Char) :
    (genSplit s c).length = s.count c + 1 := by
  have hle := Count_le_length s c
  have hn : ¬ (Count s c + 1 > s.length + 1) := by omega
  simp only [genSplit, hn, if_false, Nat.add_sub_cancel]
  rw [genSplitLoop_length c _ s (le_refl _), Count_eq_count]

theorem Split_length (s : String) (c : Char) :
    (Split s c).length = s.data.count c + 1 := by
  simp [Split, genSplit_length]

theorem Split_ne_nil (s : String) (c : Char) : Split s c ≠ [] := by
  intro h
  have := Split_length s c
  rw [h] at this
  simp at this

theorem Split_head (s : String) (c : Char) : ∃ b, (Split s c)[0]? = some b := by
  cases h : Split s c with
  | nil => exact absurd h (Split_ne_nil s c)
  | cons b t => exact ⟨b, by simp⟩

end strings

/-! ## `ensureKafkaTopics`: the loop -/

@[simp] theorem AdminRun.after_result {σ : Type} (evs : List AdminEvent) (ds : List Conn)
    (r : AdminRun σ) : (r.after evs ds).result = r.result := rfl

@[simp] theorem AdminRun.after_trace {σ : Type} (evs : List AdminEvent) (ds : List Conn)
    (r : AdminRun σ) : (r.after evs ds).trace = evs ++ r.trace := rfl

@[simp] theorem AdminRun.after_world {σ : Type} (evs : List AdminEvent) (ds : List Conn)
    (r : AdminRun σ) : (r.after evs ds).world = r.world := rfl

@[simp] theorem AdminRun.after_deferred {σ : Type} (evs : List AdminEvent) (ds : List Conn)
    (r : AdminRun σ) : (r.after evs ds).deferred = ds ++ r.deferred := rfl

theorem attemptedTopics_append (a b : List AdminEvent) :
    attemptedTopics (a ++ b) = attemptedTopics a ++ attemptedTopics b := by
  simp [attemptedTopics, List.filterMap_append]

theorem LoopEnds.after_step {σ : Type} (r : AdminRun σ) (evs : List AdminEvent) (ds : List Conn)
    (topic : String) (rest : List String) (hev : ∀ ev ∈ evs, ev.abortError = none)
    (htop : attemptedTopics evs = [topic]) (h : LoopEnds r rest) :
    LoopEnds (r.after evs ds) (topic :: rest) := by
  rcases h with ⟨h1, h2, h3⟩ | ⟨e, pre, ev, h1, h2, h3, h4, h5⟩
  · left
    refine ⟨h1, ?_, ?_⟩
    · intro ev hmem
      rcases List.mem_append.mp hmem with hmem | hmem
      · exact hev ev hmem
      · exact h2 ev hmem
    · rw [AdminRun.after_trace, attemptedTopics_append, htop, h3]; rfl
  · right
    refine ⟨e, evs ++ pre, ev, h1, ?_, h3, ?_, ?_⟩
    · rw [AdminRun.after_trace, h2, List.append_assoc]
    · intro x hmem
      rcases List.mem_append.mp hmem with hmem | hmem
      · exact hev x hmem
      · exact h4 x hmem
    · rw [AdminRun.after_trace, attemptedTopics_append, htop]
      exact (List.prefix_cons_inj topic).mpr h5

/-- The loop ends in one of the two ways of `LoopEnds` whenever the broker list
has a first element. -/
theorem ensureLoop_ends {σ : Type} (net : KafkaAdmin σ) (brokers : List String) (b : String)
    (hb : brokers[0]? = some b) (topics : List String) (w : σ) :
    LoopEnds (ensureLoop net brokers topics w) topics := by
  induction topics generalizing w with
  | nil => left; simp [ensureLoop, attemptedTopics]
  | cons topic rest ih =>
    simp only [ensureLoop, hb]
    split
    · rename_i err w1 _
      right
      exact ⟨err, [], _, rfl, rfl, rfl, by simp, by simp [attemptedTopics, AdminEvent.topic?]⟩
    · rename_i conn w1 _
      split
      · rename_i err w2 _
        right
        refine ⟨err, [.dial "tcp" b (.ok conn)], _, rfl, rfl, rfl, ?_, ?_⟩
        · simp [AdminEvent.abortError]
        · simp [attemptedTopics, AdminEvent.topic?]
      · rename_i controller w2 _
        split
        · rename_i err w3 _
          right
          refine ⟨err, [.dial "tcp" b (.ok conn), .controller conn (.ok controller)], _,
            rfl, rfl, rfl, ?_, ?_⟩
          · simp [AdminEvent.abortError]
          · simp [attemptedTopics, AdminEvent.topic?]
        · rename_i conn2 w3 _
          split
          · rename_i err w4 _
            split
            · rename_i hc
              refine LoopEnds.after_step _ _ _ topic rest ?_ ?_ (ih w4)
              · simp [AdminEvent.abortError, hc]
              · simp [attemptedTopics, AdminEvent.topic?]
            · rename_i hc
              right
              refine ⟨err, [.dial "tcp" b (.ok conn), .controller conn (.ok controller),
                .dial "tcp" _ (.ok conn2)], _, rfl, rfl, ?_, ?_, ?_⟩
              · simp [AdminEvent.abortError, hc]
              · simp [AdminEvent.abortError]
              · simp [attemptedTopics, AdminEvent.topic?]
          · rename_i w4 _
            refine LoopEnds.after_step _ _ _ topic rest ?_ ?_ (ih w4)
            · simp [AdminEvent.abortError]
            · simp [attemptedTopics, AdminEvent.topic?]

theorem runDeferred_trace {σ : Type} (net : KafkaAdmin σ) (cs : List Conn) (w : σ) :
    (runDeferred net cs w).2 = cs.map AdminEvent.close := by
  induction cs generalizing w with
  | nil => rfl
  | cons c cs ih => simp [runDeferred, ih]

theorem ensureLoop_no_panic {σ : Type} (net : KafkaAdmin σ) (brokers : List String)
    (b : String) (hb : brokers[0]? = some b) (topics : List String) (w : σ) :
    (ensureLoop net brokers topics w).result ≠ .panicked := by
  rcases ensureLoop_ends net brokers b hb topics w with ⟨h1, _⟩ | ⟨e, pre, ev, h1, _⟩ <;>
    simp [h1]

theorem ensureKafkaTopics_result {σ : Type} (svc : Service) (net : KafkaAdmin σ)
    (kafka_brokers : String) (w : σ) :
    (ensureKafkaTopics svc net kafka_brokers w).result =
      (ensureLoop net (strings.Split kafka_brokers ',') (topicsOf svc) w).result := rfl

theorem ensureKafkaTopics_trace {σ : Type} (svc : Service) (net : KafkaAdmin σ)
    (kafka_brokers : String) (w : σ) :
    (ensureKafkaTopics svc net kafka_brokers w).trace =
      (ensureLoop net (strings.Split kafka_brokers ',') (topicsOf svc) w).trace ++
        (ensureLoop net (strings.Split kafka_brokers ',') (topicsOf svc) w).deferred.reverse.map
          AdminEvent.close := by
  simp [ensureKafkaTopics, runDeferred_trace]

theorem modelBroker_loop (ctrl : Broker) (existsErr : GoError)
    (hex : strings.Contains existsErr.Error alreadyExistsText = true)
    (brokers : List String) (b : String) (hb : brokers[0]? = some b)
    (topics : List String) (s : BrokerState) :
    (ensureLoop (modelBroker ctrl existsErr) brokers topics s).result = .returned none ∧
    (∀ t, t ∈ (ensureLoop (modelBroker ctrl existsErr) brokers topics s).world.topics ↔
      t ∈ s.topics ∨ t ∈ topics) ∧
    ((∀ t ∈ topics, t ∈ s.topics) →
      (ensureLoop (modelBroker ctrl existsErr) brokers topics s).world.topics = s.topics) := by
  induction topics generalizing s with
  | nil => simp [ensureLoop]
  | cons topic rest ih =>
    by_cases hmem : topic ∈ s.topics
    · have := ih ⟨s.topics, s.opened + 1 + 1⟩
      simp only [ensureLoop, hb, modelBroker, hmem, if_true, hex, AdminRun.after_result,
        AdminRun.after_world]
      refine ⟨this.1, fun t => (this.2.1 t).trans ?_, fun hall => ?_⟩
      · simp only [List.mem_cons]
        constructor
        · rintro (h | h)
          · exact Or.inl h
          · exact Or.inr (Or.inr h)
        · rintro (h | rfl | h)
          · exact Or.inl h
          · exact Or.inl hmem
          · exact Or.inr h
      · exact this.2.2 (fun t ht => hall t (List.mem_cons_of_mem _ ht))
    · have := ih ⟨topic :: s.topics, s.opened + 1 + 1⟩
      simp only [ensureLoop, hb, modelBroker, hmem, if_false, AdminRun.after_result,
        AdminRun.after_world]
      refine ⟨this.1, fun t => (this.2.1 t).trans ?_, fun hall => ?_⟩
      · simp only [List.mem_cons]
        constructor
        · rintro ((rfl | h) | h)
          · exact Or.inr (Or.inl rfl)
          · exact Or.inl h
          · exact Or.inr (Or.inr h)
        · rintro (h | rfl | h)
          · exact Or.inl (Or.inr h)
          · exact Or.inl (Or.inl rfl)
          · exact Or.inr h
      · exact absurd (hall topic (List.mem_cons_self _ _)) hmem

theorem modelBroker_runDeferred (ctrl : Broker) (existsErr : GoError) (cs : List Conn)
    (s : BrokerState) : (runDeferred (modelBroker ctrl existsErr) cs s).1 = s := by
  induction cs generalizing s with
  | nil => rfl
  | cons c cs ih => simpa [runDeferred, modelBroker] using ih s

theorem modelBroker_call (svc : Service) (ctrl : Broker) (existsErr : GoError)
    (hex : strings.Contains existsErr.Error alreadyExistsText = true)
    (kafka_brokers : String) (s : BrokerState) :
    (ensureKafkaTopics svc (modelBroker ctrl existsErr) kafka_brokers s).result =
        .returned none ∧
    (∀ t, t ∈ (ensureKafkaTopics svc (modelBroker ctrl existsErr) kafka_brokers s).world.topics ↔
      t ∈ s.topics ∨ t ∈ topicsOf svc) ∧
    ((∀ t ∈ topicsOf svc, t ∈ s.topics) →
      (ensureKafkaTopics svc (modelBroker ctrl existsErr) kafka_brokers s).world.topics =
        s.topics) := by
  obtain ⟨b, hb⟩ := strings.Split_head kafka_brokers ','
  have h := modelBroker_loop ctrl existsErr hex _ b hb (topicsOf svc) s
  simp only [ensureKafkaTopics, modelBroker_runDeferred]
  exact h

/-- C2.  Over the broker on which dialing and the controller lookup succeed,
creating an absent topic adds it and creating a present topic fails with an
error whose message contains "Topic with this name already exists": for every
service, broker string and initial broker state, a second call of
`ensureKafkaTopics` made right after a first one returns no error and leaves
the topics of the broker as the first call left them. -/
theorem ensureKafkaTopics_idempotent (svc : Service) (ctrl : Broker) (existsErr : GoError)
    (hex : strings.Contains existsErr.Error alreadyExistsText = true)
    (kafka_brokers : String) (s : BrokerState) :
    (ensureKafkaTopics svc (modelBroker ctrl existsErr) kafka_brokers
      (ensureKafkaTopics svc (modelBroker ctrl existsErr) kafka_brokers s).world).result =
        .returned none ∧
    (ensureKafkaTopics svc (modelBroker ctrl existsErr) kafka_brokers
      (ensureKafkaTopics svc (modelBroker ctrl existsErr) kafka_brokers s).world).world.topics =
      (ensureKafkaTopics svc (modelBroker ctrl existsErr) kafka_brokers s).world.topics := by
  have h1 := modelBroker_call svc ctrl existsErr hex kafka_brokers s
  have h2 := modelBroker_call svc ctrl existsErr hex kafka_brokers
    (ensureKafkaTopics svc (modelBroker ctrl existsErr) kafka_brokers s).world
  exact ⟨h2.1, h2.2.2 (fun t ht => (h1.2.1 t).mpr (Or.inr ht))⟩

/-- Witness of C2: a broker that reports "[36] Topic with this name already
exists", reached at `localhost:9092`, holding one of the two topics of `pessoa`. -/
theorem ensureKafkaTopics_idempotent_witness :
    strings.Contains (GoError.mk 36 "[36] Topic with this name already exists").Error
      alreadyExistsText = true ∧
    (ensureKafkaTopics .pessoa
      (modelBroker ⟨"kafka", 9092, 1⟩ ⟨36, "[36] Topic with this name already exists"⟩)
      "localhost:9092"
      (ensureKafkaTopics .pessoa
        (modelBroker ⟨"kafka", 9092, 1⟩ ⟨36, "[36] Topic with this name already exists"⟩)
        "localhost:9092" ⟨["pessoa.saved"], 0⟩).world).result = .returned none ∧
    (ensureKafkaTopics .pessoa
      (modelBroker ⟨"kafka", 9092, 1⟩ ⟨36, "[36] Topic with this name already exists"⟩)
      "localhost:9092"
      (ensureKafkaTopics .pessoa
        (modelBroker ⟨"kafka", 9092, 1⟩ ⟨36, "[36] Topic with this name already exists"⟩)
        "localhost:9092" ⟨["pessoa.saved"], 0⟩).world).world.topics =
      (ensureKafkaTopics .pessoa
        (modelBroker ⟨"kafka", 9092, 1⟩ ⟨36, "[36] Topic with this name already exists"⟩)
        "localhost:9092" ⟨["pessoa.saved"], 0⟩).world.topics :=
  ⟨by decide,
    ensureKafkaTopics_idempotent .pessoa ⟨"kafka", 9092, 1⟩
      ⟨36, "[36] Topic with this name already exists"⟩ (by decide) "localhost:9092"
      ⟨["pessoa.saved"], 0⟩⟩

/-! ## C3 -/

/-- C3.  For every message whose value does not decode into the person DTO,
`CreateOrUpdatePessoa` returns the decode error, constructs no use case and
makes no repository call, and the world (the repository with it) is as it was
before the call. -/
theorem CreateOrUpdatePessoa_decode_error {Repo D U O σ : Type}
    (env : HandlerEnv Repo D U O σ) (h : PessoaKafkaHandlers Repo) (m : Message) (w : σ)
    (err : GoError) (hbad : env.Unmarshal m.Value = .error err) :
    (h.CreateOrUpdatePessoa env m w).result = some err ∧
    (h.CreateOrUpdatePessoa env m w).trace = [] ∧
    (h.CreateOrUpdatePessoa env m w).world = w := by
  simp [PessoaKafkaHandlers.CreateOrUpdatePessoa, hbad]

/-- Witness of C3: the empty value, on a repository that already holds a record. -/
theorem CreateOrUpdatePessoa_decode_error_witness :
    sampleHandlerEnv.Unmarshal (Message.mk [1] []).Value =
      .error ⟨2, "unexpected end of JSON input"⟩ ∧
    ((NewPessoaKafkaHandlers "pessoas").CreateOrUpdatePessoa sampleHandlerEnv
      (Message.mk [1] []) [[7]]).result = some ⟨2, "unexpected end of JSON input"⟩ ∧
    ((NewPessoaKafkaHandlers "pessoas").CreateOrUpdatePessoa sampleHandlerEnv
      (Message.mk [1] []) [[7]]).trace = [] ∧
    ((NewPessoaKafkaHandlers "pessoas").CreateOrUpdatePessoa sampleHandlerEnv
      (Message.mk [1] []) [[7]]).world = [[7]] :=
  ⟨rfl, CreateOrUpdatePessoa_decode_error sampleHandlerEnv (NewPessoaKafkaHandlers "pessoas")
    (Message.mk [1] []) [[7]] ⟨2, "unexpected end of JSON input"⟩ rfl⟩

/-! ## C4 -/

/-- C4, as the code has it.  For every broker list and starting world: with the
empty topic name `NewKafkaProducer` ends in `log.Fatal`, returns no producer,
has made no call to the Kafka client (no writer is constructed) and has left
the world untouched.  With a non-empty topic and a non-empty broker list it
returns a producer whose writer is the one `kafka.NewWriter` built from exactly
the given brokers and topic, that being the only call made.  With a non-empty
topic and an empty broker list, `kafka.NewWriter` panics: no producer is
returned and the world is untouched. -/
theorem NewKafkaProducer_topic_check {W C σ : Type} (env : WriterEnv W C σ)
    (brokers : List String) (topic : String) (w : σ) :
    (topic = "" →
      (NewKafkaProducer env brokers topic w).result = .fatal "Kafka topic must be specified" ∧
      (NewKafkaProducer env brokers topic w).trace = [] ∧
      (NewKafkaProducer env brokers topic w).world = w) ∧
    (topic ≠ "" → brokers ≠ [] →
      (NewKafkaProducer env brokers topic w).result =
        .value ⟨(env.NewWriter ⟨brokers, topic⟩ w).1⟩ ∧
      (NewKafkaProducer env brokers topic w).trace =
        [.newWriter ⟨brokers, topic⟩ (some (env.NewWriter ⟨brokers, topic⟩ w).1)] ∧
      (NewKafkaProducer env brokers topic w).world = (env.NewWriter ⟨brokers, topic⟩ w).2) ∧
    (topic ≠ "" → brokers = [] →
      (NewKafkaProducer env brokers topic w).result = .panicked noBrokersText ∧
      (NewKafkaProducer env brokers topic w).trace = [.newWriter ⟨brokers, topic⟩ none] ∧
      (NewKafkaProducer env brokers topic w).world = w) := by
  refine ⟨fun h => ?_, fun h hb => ?_, fun h hb => ?_⟩
  · simp [NewKafkaProducer, h]
  · simp [NewKafkaProducer, kafkaNewWriter, h, hb]
  · simp [NewKafkaProducer, kafkaNewWriter, h, hb]

/-- The branches of C4 at concrete inputs: the empty topic, and `pessoa.saved`
with one broker. -/
theorem NewKafkaProducer_topic_check_witness :
    ((NewKafkaProducer sampleWriterEnv ["localhost:9092"] "" []).result =
        .fatal "Kafka topic must be specified" ∧
      (NewKafkaProducer sampleWriterEnv ["localhost:9092"] "" []).trace = [] ∧
      (NewKafkaProducer sampleWriterEnv ["localhost:9092"] "" []).world = []) ∧
    ((NewKafkaProducer sampleWriterEnv ["localhost:9092"] "pessoa.saved" []).result =
        .value ⟨(sampleWriterEnv.NewWriter ⟨["localhost:9092"], "pessoa.saved"⟩ []).1⟩ ∧
      (NewKafkaProducer sampleWriterEnv ["localhost:9092"] "pessoa.saved" []).trace =
        [.newWriter ⟨["localhost:9092"], "pessoa.saved"⟩
          (some (sampleWriterEnv.NewWriter ⟨["localhost:9092"], "pessoa.saved"⟩ []).1)] ∧
      (NewKafkaProducer sampleWriterEnv ["localhost:9092"] "pessoa.saved" []).world =
        (sampleWriterEnv.NewWriter ⟨["localhost:9092"], "pessoa.saved"⟩ []).2) :=
  ⟨(NewKafkaProducer_topic_check sampleWriterEnv ["localhost:9092"] "" []).1 rfl,
   (NewKafkaProducer_topic_check sampleWriterEnv ["localhost:9092"] "pessoa.saved" []).2.1
     (by decide) (by decide)⟩

/-- C4 as first stated fails: with the topic `pessoa.saved` and no broker,
`NewKafkaProducer` returns no producer, it panics inside `kafka.NewWriter`. -/
theorem NewKafkaProducer_no_brokers_panics :
    (NewKafkaProducer sampleWriterEnv [] "pessoa.saved" []).result = .panicked noBrokersText ∧
    ¬ ∃ p, (NewKafkaProducer sampleWriterEnv [] "pessoa.saved" []).result = .value p := by
  have h : (NewKafkaProducer sampleWriterEnv [] "pessoa.saved" []).result =
      .panicked noBrokersText := by
    simp [NewKafkaProducer, kafkaNewWriter]
  refine ⟨h, ?_⟩
  rintro ⟨p, hp⟩
  rw [h] at hp
  cases hp

/-! ## C5 -/

/-- C5.  For every key and value, `PublishMessage` makes exactly one call to the
writer, `WriteMessages` with the single message whose key bytes are the key and
whose value bytes are the value; the error it returns is the one that write
returned (so none exactly when the write succeeded), and the world is the one
that write left. -/
theorem PublishMessage_single_write {W C σ : Type} (env : WriterEnv W C σ)
    (p : KafkaProducer W) (ctx : C) (key value : String) (w : σ) :
    (p.PublishMessage env ctx key value w).trace =
      [.writeMessages p.Writer ctx [⟨bytesOf key, bytesOf value⟩]
        (env.WriteMessages p.Writer ctx [⟨bytesOf key, bytesOf value⟩] w).1] ∧
    (p.PublishMessage env ctx key value w).result =
      (env.WriteMessages p.Writer ctx [⟨bytesOf key, bytesOf value⟩] w).1 ∧
    (p.PublishMessage env ctx key value w).world =
      (env.WriteMessages p.Writer ctx [⟨bytesOf key, bytesOf value⟩] w).2 ∧
    ((p.PublishMessage env ctx key value w).result = none ↔
      (env.WriteMessages p.Writer ctx [⟨bytesOf key, bytesOf value⟩] w).1 = none) := by
  unfold KafkaProducer.PublishMessage
  rcases hw : env.WriteMessages p.Writer ctx [⟨bytesOf key, bytesOf value⟩] w with ⟨_ | err, w1⟩
  · simp [hw]
  · simp [hw]

/-! ## The read loop -/

theorem readsOf_callsOfRead {R : Type} (reader : R) (res : Except GoError Message) :
    readsOf (callsOfRead reader res) = [res] := by
  cases res <;> rfl

theorem handledOf_callsOfRead {R : Type} (reader : R) (res : Except GoError Message) :
    handledOf (callsOfRead reader res) = (readMessage? res).toList := by
  cases res <;> rfl

theorem readsOf_append {R : Type} (a b : List (ConsumerEvent R)) :
    readsOf (a ++ b) = readsOf a ++ readsOf b := by
  simp [readsOf, List.filterMap_append]

theorem handledOf_append {R : Type} (a b : List (ConsumerEvent R)) :
    handledOf (a ++ b) = handledOf a ++ handledOf b := by
  simp [handledOf, List.filterMap_append]

/-- One iteration of the loop: the calls around the read, then the rest. -/
theorem consumeLoop_succ {R σ : Type} (env : ReaderEnv R σ) (kc : KafkaConsumer σ) (reader : R)
    (n : Nat) (w : σ) :
    ∃ w2, (consumeLoop env kc reader (n + 1) w).2 =
        callsOfRead reader (env.ReadMessage reader readTimeout w).1 ++
          (consumeLoop env kc reader n w2).2 ∧
      (consumeLoop env kc reader (n + 1) w).1 = (consumeLoop env kc reader n w2).1 := by
  rcases hr : env.ReadMessage reader readTimeout w with ⟨err | msg, w1⟩
  · exact ⟨w1, by simp [consumeLoop, hr, callsOfRead]⟩
  · exact ⟨(kc.handler msg w1).2, by simp [consumeLoop, hr, callsOfRead]⟩

theorem consumeLoop_trace {R σ : Type} (env : ReaderEnv R σ) (kc : KafkaConsumer σ) (reader : R)
    (n : Nat) (w : σ) :
    (consumeLoop env kc reader n w).2 =
        (readsOf (consumeLoop env kc reader n w).2).flatMap (callsOfRead reader) ∧
    (readsOf (consumeLoop env kc reader n w).2).length = n := by
  induction n generalizing w with
  | zero => simp [consumeLoop, readsOf]
  | succ n ih =>
    obtain ⟨w2, h, _⟩ := consumeLoop_succ env kc reader n w
    rw [h, readsOf_append, readsOf_callsOfRead]
    obtain ⟨ih1, ih2⟩ := ih w2
    constructor
    · rw [List.singleton_append, List.flatMap_cons, ← ih1]
    · simp [ih2, Nat.add_comm]

theorem handledOf_flatMap {R : Type} (reader : R) (rs : List (Except GoError Message)) :
    handledOf (rs.flatMap (callsOfRead reader)) = rs.filterMap readMessage? := by
  induction rs with
  | nil => rfl
  | cons r rs ih =>
    rw [List.flatMap_cons, handledOf_append, ih, handledOf_callsOfRead]
    cases r <;> simp [readMessage?]

theorem StartConsuming_trace {R σ : Type} (env : ReaderEnv R σ) (kc : KafkaConsumer σ)
    (broker : String) (n : Nat) (w : σ) :
    (kc.StartConsuming env broker n w).2 =
      .newReader (readerConfigOf kc broker) (env.NewReader (readerConfigOf kc broker) w).1 ::
        (consumeLoop env kc (env.NewReader (readerConfigOf kc broker) w).1 n
          (env.NewReader (readerConfigOf kc broker) w).2).2 := rfl

theorem readsOf_StartConsuming {R σ : Type} (env : ReaderEnv R σ) (kc : KafkaConsumer σ)
    (broker : String) (n : Nat) (w : σ) :
    readsOf (kc.StartConsuming env broker n w).2 =
      readsOf (consumeLoop env kc (env.NewReader (readerConfigOf kc broker) w).1 n
        (env.NewReader (readerConfigOf kc broker) w).2).2 := by
  rw [StartConsuming_trace]; rfl

theorem handledOf_StartConsuming {R σ : Type} (env : ReaderEnv R σ) (kc : KafkaConsumer σ)
    (broker : String) (n : Nat) (w : σ) :
    handledOf (kc.StartConsuming env broker n w).2 =
      handledOf (consumeLoop env kc (env.NewReader (readerConfigOf kc broker) w).1 n
        (env.NewReader (readerConfigOf kc broker) w).2).2 := by
  rw [StartConsuming_trace]; rfl

/-! ## C6 -/

theorem ReaderEnv.recorded_ReadMessage {R σ : Type} (env : ReaderEnv R σ) (reader : R)
    (timeout : Nat) (w : σ) (log : List (ConsumerEvent R)) :
    env.recorded.ReadMessage reader timeout (w, log) =
      ((env.ReadMessage reader timeout w).1,
        ((env.ReadMessage reader timeout w).2,
          log ++ [.read reader timeout (env.ReadMessage reader timeout w).1])) := rfl

theorem ReaderEnv.recorded_NewReader {R σ : Type} (env : ReaderEnv R σ) (cfg : ReaderConfig)
    (w : σ) (log : List (ConsumerEvent R)) :
    env.recorded.NewReader cfg (w, log) =
      ((env.NewReader cfg w).1,
        ((env.NewReader cfg w).2, log ++ [.newReader cfg (env.NewReader cfg w).1])) := rfl

theorem KafkaConsumer.recorded_handler {σ : Type} (R : Type) (kc : KafkaConsumer σ)
    (msg : Message) (w : σ) (log : List (ConsumerEvent R)) :
    (kc.recorded R).handler msg (w, log) =
      ((kc.handler msg w).1, ((kc.handler msg w).2, log ++ [.handle msg])) := rfl

/-- The loop run on the logging environment does what it does on the plain one,
and the calls logged are the calls of its trace. -/
theorem consumeLoop_recorded {R σ : Type} (env : ReaderEnv R σ) (kc : KafkaConsumer σ)
    (reader : R) (n : Nat) (w : σ) (log : List (ConsumerEvent R)) :
    consumeLoop env.recorded (kc.recorded R) reader n (w, log) =
      (((consumeLoop env kc reader n w).1, log ++ (consumeLoop env kc reader n w).2),
        (consumeLoop env kc reader n w).2) := by
  induction n generalizing w log with
  | zero => simp [consumeLoop]
  | succ n ih =>
    rcases hr : env.ReadMessage reader readTimeout w with ⟨err | msg, w1⟩
    · simp [consumeLoop, ReaderEnv.recorded_ReadMessage, hr, ih]
    · simp [consumeLoop, ReaderEnv.recorded_ReadMessage, KafkaConsumer.recorded_handler, hr, ih]

/-- C6.  For every reader behaviour, consumer, broker, starting world and number
`n` of iterations of the loop of `StartConsuming`.  Run with a reader and a
handler that log the calls they receive, the loop leaves the world of the plain
run and a log equal to the trace of the plain run: the trace lists the calls
really made to `ReadMessage` and to the handler, in order, with the outcomes
the reader delivered.  In that trace the loop has issued `n` reads; after
opening the reader its calls are, for each read outcome in delivery order, the
read followed by one handler call with the message read when the read
succeeded, and the read alone when it timed out or failed (the next call is
then the next read); so the messages passed to the handler are exactly the
successfully read messages, in delivery order. -/
theorem StartConsuming_in_order {R σ : Type} (env : ReaderEnv R σ) (kc : KafkaConsumer σ)
    (broker : String) (n : Nat) (w : σ) :
    ((kc.recorded R).StartConsuming env.recorded broker n (w, [])).1 =
      ((kc.StartConsuming env broker n w).1, (kc.StartConsuming env broker n w).2) ∧
    (readsOf (kc.StartConsuming env broker n w).2).length = n ∧
    (kc.StartConsuming env broker n w).2 =
      .newReader (readerConfigOf kc broker) (env.NewReader (readerConfigOf kc broker) w).1 ::
        (readsOf (kc.StartConsuming env broker n w).2).flatMap
          (callsOfRead (env.NewReader (readerConfigOf kc broker) w).1) ∧
    handledOf (kc.StartConsuming env broker n w).2 =
      (readsOf (kc.StartConsuming env broker n w).2).filterMap readMessage? := by
  have h := consumeLoop_trace env kc (env.NewReader (readerConfigOf kc broker) w).1 n
    (env.NewReader (readerConfigOf kc broker) w).2
  rw [handledOf_StartConsuming, readsOf_StartConsuming]
  refine ⟨?_, h.2, ?_, ?_⟩
  · simp only [KafkaConsumer.StartConsuming, ReaderEnv.recorded_NewReader,
      consumeLoop_recorded]
    rfl
  · rw [StartConsuming_trace, ← h.1]
  · conv_lhs => rw [h.1]
    exact handledOf_flatMap _ _

/-- Concrete run for C6: of the outcomes message, timeout, message, the handler
is called with the two messages, in that order, and stores them; the fourth
read finds nothing left. -/
theorem StartConsuming_in_order_witness :
    (readsOf ((KafkaConsumer.mk "pessoa.saved" 0 ["localhost:9092"]
        storeHandler).StartConsuming sampleReaderEnv "localhost:9092" 4
        ⟨[.ok ⟨[1], [10]⟩, .error ⟨4, "timeout"⟩, .ok ⟨[2], [20]⟩], []⟩).2).length = 4 ∧
    handledOf ((KafkaConsumer.mk "pessoa.saved" 0 ["localhost:9092"]
        storeHandler).StartConsuming sampleReaderEnv "localhost:9092" 4
        ⟨[.ok ⟨[1], [10]⟩, .error ⟨4, "timeout"⟩, .ok ⟨[2], [20]⟩], []⟩).2 =
      [⟨[1], [10]⟩, ⟨[2], [20]⟩] ∧
    handledOf (((KafkaConsumer.mk "pessoa.saved" 0 ["localhost:9092"]
        storeHandler).recorded Unit).StartConsuming sampleReaderEnv.recorded "localhost:9092" 4
        (⟨[.ok ⟨[1], [10]⟩, .error ⟨4, "timeout"⟩, .ok ⟨[2], [20]⟩], []⟩, [])).1.2 =
      [⟨[1], [10]⟩, ⟨[2], [20]⟩] ∧
    ((KafkaConsumer.mk "pessoa.saved" 0 ["localhost:9092"]
        storeHandler).StartConsuming sampleReaderEnv "localhost:9092" 4
        ⟨[.ok ⟨[1], [10]⟩, .error ⟨4, "timeout"⟩, .ok ⟨[2], [20]⟩], []⟩).1.stored =
      [⟨[1], [10]⟩, ⟨[2], [20]⟩] :=
  ⟨(StartConsuming_in_order sampleReaderEnv
      (KafkaConsumer.mk "pessoa.saved" 0 ["localhost:9092"] storeHandler) "localhost:9092" 4
      ⟨[.ok ⟨[1], [10]⟩, .error ⟨4, "timeout"⟩, .ok ⟨[2], [20]⟩], []⟩).2.1,
   by decide, by decide, by decide⟩

/-! ## C7 -/

theorem consumeLoop_handler_error {R σ : Type} (env : ReaderEnv R σ) (kc : KafkaConsumer σ)
    (handler2 : Message → σ → Option GoError × σ)
    (hsame : ∀ m w, (handler2 m w).2 = (kc.handler m w).2) (reader : R) (n : Nat) (w : σ) :
    consumeLoop env { kc with handler := handler2 } reader n w =
      consumeLoop env kc reader n w := by
  induction n generalizing w with
  | zero => rfl
  | succ n ih =>
    rcases hr : env.ReadMessage reader readTimeout w with ⟨err | msg, w1⟩
    · simp [consumeLoop, hr, ih]
    · simp [consumeLoop, hr, ih, hsame]

/-- C7.  The loop of `StartConsuming` does not look at what the handler returns.
For every reader behaviour, consumer, broker, starting world and number `n` of
iterations, and every second handler that acts on the world as the handler of
the consumer does (so that the two differ in the errors they return at most):
the run with the second handler has the same calls (the same reads with the
same outcomes, the same handler calls) and the same final world as the run with
the first; and in that run, whatever the handler returned, the loop has issued
all `n` reads and has called the handler on the messages successfully read, once
each and in order, none again after an error. -/
theorem StartConsuming_ignores_handler_error {R σ : Type} (env : ReaderEnv R σ)
    (kc : KafkaConsumer σ) (handler2 : Message → σ → Option GoError × σ)
    (broker : String) (n : Nat) (w : σ)
    (hsame : ∀ m w, (handler2 m w).2 = (kc.handler m w).2) :
    KafkaConsumer.StartConsuming env { kc with handler := handler2 } broker n w =
      kc.StartConsuming env broker n w ∧
    (readsOf (KafkaConsumer.StartConsuming env { kc with handler := handler2 }
      broker n w).2).length = n ∧
    handledOf (KafkaConsumer.StartConsuming env { kc with handler := handler2 }
      broker n w).2 =
      (readsOf (KafkaConsumer.StartConsuming env { kc with handler := handler2 }
        broker n w).2).filterMap readMessage? := by
  have heq : KafkaConsumer.StartConsuming env { kc with handler := handler2 } broker n w =
      kc.StartConsuming env broker n w := by
    simp only [KafkaConsumer.StartConsuming]
    rw [consumeLoop_handler_error env kc handler2 hsame]
  have h := consumeLoop_trace env kc (env.NewReader (readerConfigOf kc broker) w).1 n
    (env.NewReader (readerConfigOf kc broker) w).2
  refine ⟨heq, ?_, ?_⟩
  · rw [heq, readsOf_StartConsuming]; exact h.2
  · rw [heq, handledOf_StartConsuming, readsOf_StartConsuming]
    conv_lhs => rw [h.1]
    rw [handledOf_flatMap]

/-- Witness of C7: a handler that stores the message and one that stores it and
fails, on three read outcomes. -/
theorem StartConsuming_ignores_handler_error_witness :
    (∀ m w, (storeAndFailHandler m w).2 =
      ((KafkaConsumer.mk "pessoa.saved" 0 ["localhost:9092"] storeHandler).handler m w).2) ∧
    (KafkaConsumer.StartConsuming sampleReaderEnv
        { (KafkaConsumer.mk "pessoa.saved" 0 ["localhost:9092"] storeHandler) with
          handler := storeAndFailHandler } "localhost:9092" 3
        ⟨[.ok ⟨[1], [10]⟩, .error ⟨4, "timeout"⟩, .ok ⟨[2], [20]⟩], []⟩ =
      (KafkaConsumer.mk "pessoa.saved" 0 ["localhost:9092"] storeHandler).StartConsuming
        sampleReaderEnv "localhost:9092" 3
        ⟨[.ok ⟨[1], [10]⟩, .error ⟨4, "timeout"⟩, .ok ⟨[2], [20]⟩], []⟩) :=
  ⟨fun _ _ => rfl,
   (StartConsuming_ignores_handler_error sampleReaderEnv
      (KafkaConsumer.mk "pessoa.saved" 0 ["localhost:9092"] storeHandler) storeAndFailHandler
      "localhost:9092" 3 ⟨[.ok ⟨[1], [10]⟩, .error ⟨4, "timeout"⟩, .ok ⟨[2], [20]⟩], []⟩
      (fun _ _ => rfl)).1⟩

/-! ## C8 -/

theorem launch_brokers {σ : Type} (consumer : KafkaConsumer σ) (bs : List String)
    (st : PoolState σ) :
    (bs.foldl (fun st broker => (⟨st.wg + 1, st.launched ++ [(consumer, broker)]⟩ : PoolState σ))
        st).launched = st.launched ++ bs.map (fun b => (consumer, b)) ∧
    (bs.foldl (fun st broker => (⟨st.wg + 1, st.launched ++ [(consumer, broker)]⟩ : PoolState σ))
        st).wg = st.wg + bs.length := by
  induction bs generalizing st with
  | nil => simp
  | cons b bs ih =>
    simp only [List.foldl_cons, List.map_cons, List.length_cons]
    obtain ⟨h1, h2⟩ := ih ⟨st.wg + 1, st.launched ++ [(consumer, b)]⟩
    rw [h1, h2]
    constructor
    · simp
    · show st.wg + 1 + bs.length = st.wg + (bs.length + 1)
      omega

theorem launch_consumers {σ : Type} (cs : List (KafkaConsumer σ)) (st : PoolState σ) :
    (cs.foldl
      (fun st consumer =>
        consumer.brokers.foldl
          (fun st broker => (⟨st.wg + 1, st.launched ++ [(consumer, broker)]⟩ : PoolState σ)) st)
      st).launched =
      st.launched ++ cs.flatMap (fun c => c.brokers.map (fun b => (c, b))) ∧
    (cs.foldl
      (fun st consumer =>
        consumer.brokers.foldl
          (fun st broker => (⟨st.wg + 1, st.launched ++ [(consumer, broker)]⟩ : PoolState σ)) st)
      st).wg = st.wg + (cs.map (fun c => c.brokers.length)).sum := by
  induction cs generalizing st with
  | nil => simp
  | cons c cs ih =>
    simp only [List.foldl_cons, List.flatMap_cons, List.map_cons, List.sum_cons]
    obtain ⟨h1, h2⟩ := ih (c.brokers.foldl
      (fun st broker => (⟨st.wg + 1, st.launched ++ [(c, broker)]⟩ : PoolState σ)) st)
    obtain ⟨g1, g2⟩ := launch_brokers c c.brokers st
    rw [h1, h2, g1, g2]
    constructor
    · simp
    · omega

theorem length_pairs {σ : Type} (cs : List (KafkaConsumer σ)) :
    (cs.flatMap (fun c => c.brokers.map (fun b => (c, b)))).length =
      (cs.map (fun c => c.brokers.length)).sum := by
  induction cs with
  | nil => rfl
  | cons c cs ih =>
    rw [List.flatMap_cons, List.length_append, ih, List.length_map, List.map_cons,
      List.sum_cons]

/-- C8.  For every list of consumer specs, the read loops started by
`startKafkaConsumers` are, in start order, the specs in list order, each paired
with each of its broker addresses in order: one loop for every pair of a spec
and one of its addresses.  Their number is the sum of the lengths of the broker
lists, the wait group counts as many, and every loop started for a spec runs
on one of the addresses of that spec, so a spec without address starts none. -/
theorem startKafkaConsumers_launches {σ : Type} (consumers : List (KafkaConsumer σ)) :
    (startKafkaConsumers consumers).launched =
      consumers.flatMap (fun c => c.brokers.map (fun b => (c, b))) ∧
    (startKafkaConsumers consumers).launched.length =
      (consumers.map (fun c => c.brokers.length)).sum ∧
    (startKafkaConsumers consumers).wg = (startKafkaConsumers consumers).launched.length ∧
    (∀ p ∈ (startKafkaConsumers consumers).launched, p.1 ∈ consumers ∧ p.2 ∈ p.1.brokers) := by
  obtain ⟨h1, h2⟩ := launch_consumers consumers ⟨0, []⟩
  have hl : (startKafkaConsumers consumers).launched =
      consumers.flatMap (fun c => c.brokers.map (fun b => (c, b))) := by
    simpa [startKafkaConsumers] using h1
  have hlen := length_pairs consumers
  refine ⟨hl, ?_, ?_, ?_⟩
  · rw [hl, hlen]
  · rw [hl, hlen]
    simpa [startKafkaConsumers] using h2
  · intro p hp
    rw [hl] at hp
    obtain ⟨c, hc, hp⟩ := List.mem_flatMap.mp hp
    obtain ⟨b, hb, rfl⟩ := List.mem_map.mp hp
    exact ⟨hc, hb⟩

/-! ## C9 -/

/-- C9.  For every message, handler and starting world: when the value decodes
to a DTO, `CreateOrUpdatePessoa` constructs one use case on the repository of
the handler and calls its create-or-update once, with that DTO, and nothing
else; the error it returns is the error that call returned, unchanged, and the
world is the one that call left.  Over all messages, the handler returns no
error exactly when the value decodes and the create-or-update on the decoded
DTO returns no error. -/
theorem CreateOrUpdatePessoa_propagates {Repo D U O σ : Type}
    (env : HandlerEnv Repo D U O σ) (h : PessoaKafkaHandlers Repo) (m : Message) (w : σ) :
    (∀ dto, env.Unmarshal m.Value = .ok dto →
      (h.CreateOrUpdatePessoa env m w).trace =
        [.newUseCase h.PessoaRepository,
         .execute (env.NewSavePessoaUseCase h.PessoaRepository w).1 dto] ∧
      (h.CreateOrUpdatePessoa env m w).result =
        (env.ExecuteCreateOrUpdatePessoa (env.NewSavePessoaUseCase h.PessoaRepository w).1 dto
          (env.NewSavePessoaUseCase h.PessoaRepository w).2).1.2 ∧
      (h.CreateOrUpdatePessoa env m w).world =
        (env.ExecuteCreateOrUpdatePessoa (env.NewSavePessoaUseCase h.PessoaRepository w).1 dto
          (env.NewSavePessoaUseCase h.PessoaRepository w).2).2) ∧
    ((h.CreateOrUpdatePessoa env m w).result = none ↔
      ∃ dto, env.Unmarshal m.Value = .ok dto ∧
        (env.ExecuteCreateOrUpdatePessoa (env.NewSavePessoaUseCase h.PessoaRepository w).1 dto
          (env.NewSavePessoaUseCase h.PessoaRepository w).2).1.2 = none) := by
  unfold PessoaKafkaHandlers.CreateOrUpdatePessoa
  cases hd : env.Unmarshal m.Value with
  | error err => simp
  | ok dto =>
    rcases hu : env.NewSavePessoaUseCase h.PessoaRepository w with ⟨uc, w1⟩
    rcases hx : env.ExecuteCreateOrUpdatePessoa uc dto w1 with ⟨⟨out, _ | err⟩, w2⟩
    · simp [hx]
    · simp [hx]

/-- C9 at two concrete messages: a record that is new is stored and no error is
returned; a record the repository refuses gives back the error of the
repository. -/
theorem CreateOrUpdatePessoa_propagates_witness :
    (((NewPessoaKafkaHandlers "pessoas").CreateOrUpdatePessoa sampleHandlerEnv
        (Message.mk [1] [42]) [[7]]).result = none ∧
      ((NewPessoaKafkaHandlers "pessoas").CreateOrUpdatePessoa sampleHandlerEnv
        (Message.mk [1] [42]) [[7]]).world = [[42], [7]]) ∧
    ((NewPessoaKafkaHandlers "pessoas").CreateOrUpdatePessoa sampleHandlerEnv
        (Message.mk [1] [7]) [[7]]).result = some ⟨3, "duplicate key"⟩ :=
  ⟨⟨((CreateOrUpdatePessoa_propagates sampleHandlerEnv (NewPessoaKafkaHandlers "pessoas")
        (Message.mk [1] [42]) [[7]]).1 [42] rfl).2.1,
     ((CreateOrUpdatePessoa_propagates sampleHandlerEnv (NewPessoaKafkaHandlers "pessoas")
        (Message.mk [1] [42]) [[7]]).1 [42] rfl).2.2⟩,
   ((CreateOrUpdatePessoa_propagates sampleHandlerEnv (NewPessoaKafkaHandlers "pessoas")
        (Message.mk [1] [7]) [[7]]).1 [7] rfl).2.1⟩

/-! ## C10 -/

namespace strings

theorem IndexByte_none_not_mem (s : List Char) (c : Char) (h : IndexByte s c = none) :
    c ∉ s := by
  have h0 := IndexByte_none s c h
  rw [Count_eq_count] at h0
  exact List.count_eq_zero.mp h0

theorem IndexByte_some_split (s : List Char) (c : Char) (m : Nat)
    (h : IndexByte s c = some m) :
    s = s.take m ++ c :: s.drop (m + 1) ∧ c ∉ s.take m := by
  induction s generalizing m with
  | nil => simp [IndexByte] at h
  | cons x t ih =>
    by_cases hx : x = c
    · simp [IndexByte, hx] at h
      subst h
      simp [hx]
    · simp [IndexByte, hx] at h
      obtain ⟨k, hk, rfl⟩ := h
      obtain ⟨h1, h2⟩ := ih k hk
      constructor
      · simp only [List.take_succ_cons, List.drop_succ_cons, List.cons_append]
        rw [← h1]
      · simp only [List.take_succ_cons, List.mem_cons, not_or]
        exact ⟨fun hc => hx hc.symm, h2⟩

theorem genSplitLoop_ne_nil (c : Char) (k : Nat) (s : List Char) : genSplitLoop c k s ≠ [] := by
  cases k with
  | zero => simp [genSplitLoop]
  | succ k =>
    cases hi : IndexByte s c <;> simp [genSplitLoop, hi]

theorem intercalate_cons_of_ne_nil (c : Char) (a : List Char) (r : List (List Char))
    (hr : r ≠ []) : List.intercalate [c] (a :: r) = a ++ c :: List.intercalate [c] r := by
  cases r with
  | nil => exact absurd rfl hr
  | cons b r => simp [List.intercalate]

theorem genSplitLoop_join (c : Char) (k : Nat) (s : List Char) :
    List.intercalate [c] (genSplitLoop c k s) = s := by
  induction k generalizing s with
  | zero => simp [genSplitLoop, List.intercalate]
  | succ k ih =>
    cases hi : IndexByte s c with
    | none => simp [genSplitLoop, hi, List.intercalate]
    | some m =>
      simp only [genSplitLoop, hi]
      rw [intercalate_cons_of_ne_nil c _ _ (genSplitLoop_ne_nil c k _), ih]
      exact (IndexByte_some_split s c m hi).1.symm

theorem genSplitLoop_sep_free (c : Char) (k : Nat) (s : List Char) (h : Count s c ≤ k) :
    ∀ a ∈ genSplitLoop c k s, c ∉ a := by
  induction k generalizing s with
  | zero =>
    intro a ha
    have h0 : Count s c = 0 := Nat.le_zero.mp h
    rw [Count_eq_count] at h0
    simp only [genSplitLoop, List.mem_singleton] at ha
    subst ha
    exact List.count_eq_zero.mp h0
  | succ k ih =>
    intro a ha
    cases hi : IndexByte s c with
    | none =>
      simp only [genSplitLoop, hi, List.mem_singleton] at ha
      subst ha
      exact IndexByte_none_not_mem _ c hi
    | some m =>
      simp only [genSplitLoop, hi, List.mem_cons] at ha
      rcases ha with rfl | ha
      · exact (IndexByte_some_split s c m hi).2
      · have hc := IndexByte_some s c m hi
        exact ih _ (by omega) a ha

theorem genSplit_eq (s : List Char) (c : Char) :
    genSplit s c = genSplitLoop c (Count s c) s := by
  have hle := Count_le_length s c
  have hn : ¬ (Count s c + 1 > s.length + 1) := by omega
  simp only [genSplit, hn, if_false, Nat.add_sub_cancel]

theorem Split_join (s : String) (c : Char) :
    List.intercalate [c] ((Split s c).map String.data) = s.data := by
  have : (Split s c).map String.data = genSplit s.data c := by
    simp [Split, Function.comp_def]
  rw [this, genSplit_eq, genSplitLoop_join]

theorem Split_sep_free (s : String) (c : Char) : ∀ a ∈ Split s c, c ∉ a.data := by
  intro a ha
  simp only [Split, List.mem_map] at ha
  obtain ⟨l, hl, rfl⟩ := ha
  rw [genSplit_eq] at hl
  exact genSplitLoop_sep_free c _ _ (le_refl _) l hl

end strings

/-- C10.  The broker list is the value of `KAFKA_BROKERS` split on commas: its
elements hold no comma and, joined with commas, give the value back.  The empty
value gives the one-element list `[""]`; a value with `k` commas gives `k + 1`
addresses, so the list is never empty, and `ensureKafkaTopics`, which splits the
same way and takes element 0, never panics on an index out of range, whatever
the broker string and the behaviour of the broker calls. -/
theorem kafka_brokers_list_nonempty {σ : Type} (svc : Service) (net : KafkaAdmin σ)
    (kafka_brokers : String) (w : σ) :
    kafka_brokers_list "" = [""] ∧
    (kafka_brokers_list kafka_brokers).length = kafka_brokers.data.count ',' + 1 ∧
    kafka_brokers_list kafka_brokers ≠ [] ∧
    (∀ a ∈ kafka_brokers_list kafka_brokers, ',' ∉ a.data) ∧
    List.intercalate [','] ((kafka_brokers_list kafka_brokers).map String.data) =
      kafka_brokers.data ∧
    (∃ b, (strings.Split kafka_brokers ',')[0]? = some b) ∧
    (ensureKafkaTopics svc net kafka_brokers w).result ≠ .panicked := by
  refine ⟨by decide, strings.Split_length _ _, strings.Split_ne_nil _ _,
    strings.Split_sep_free _ _, strings.Split_join _ _, strings.Split_head _ _, ?_⟩
  obtain ⟨b, hb⟩ := strings.Split_head kafka_brokers ','
  rw [ensureKafkaTopics_result]
  exact ensureLoop_no_panic net _ b hb _ w

/-! ## C11 -/

theorem openedConns_append (a b : List AdminEvent) :
    openedConns (a ++ b) = openedConns a ++ openedConns b := by
  simp [openedConns, List.filterMap_append]

theorem closedConns_append (a b : List AdminEvent) :
    closedConns (a ++ b) = closedConns a ++ closedConns b := by
  simp [closedConns, List.filterMap_append]

theorem openedConns_closes (cs : List Conn) : openedConns (cs.map AdminEvent.close) = [] := by
  induction cs with
  | nil => rfl
  | cons c cs ih => simp [openedConns, AdminEvent.opened?]

theorem closedConns_closes (cs : List Conn) : closedConns (cs.map AdminEvent.close) = cs := by
  induction cs with
  | nil => rfl
  | cons c cs ih =>
    simp only [closedConns] at ih
    simp [closedConns, AdminEvent.closed?, ih]

/-- In the loop, the connections opened are the ones whose close has been
deferred, in that order, and nothing has been closed yet. -/
theorem ensureLoop_deferred {σ : Type} (net : KafkaAdmin σ) (brokers : List String)
    (topics : List String) (w : σ) :
    openedConns (ensureLoop net brokers topics w).trace =
      (ensureLoop net brokers topics w).deferred ∧
    closedConns (ensureLoop net brokers topics w).trace = [] := by
  induction topics generalizing w with
  | nil => simp [ensureLoop, openedConns, closedConns]
  | cons topic rest ih =>
    simp only [ensureLoop]
    split
    · simp [openedConns, closedConns]
    · split
      · simp [openedConns, closedConns, AdminEvent.opened?, AdminEvent.closed?]
      · split
        · simp [openedConns, closedConns, AdminEvent.opened?, AdminEvent.closed?]
        · split
          · simp [openedConns, closedConns, AdminEvent.opened?, AdminEvent.closed?]
          · rename_i conn2 w3 _
            split
            · rename_i err w4 _
              split
              · obtain ⟨h1, h2⟩ := ih w4
                rw [AdminRun.after_trace, AdminRun.after_deferred, openedConns_append,
                  closedConns_append, h1, h2]
                simp [openedConns, closedConns, AdminEvent.opened?, AdminEvent.closed?]
              · simp [openedConns, closedConns, AdminEvent.opened?, AdminEvent.closed?]
            · rename_i w4 _
              obtain ⟨h1, h2⟩ := ih w4
              rw [AdminRun.after_trace, AdminRun.after_deferred, openedConns_append,
                closedConns_append, h1, h2]
              simp [openedConns, closedConns, AdminEvent.opened?, AdminEvent.closed?]

theorem KafkaAdmin.recorded_Dial {σ : Type} (net : KafkaAdmin σ) (network address : String)
    (w : σ) (log : List AdminEvent) :
    net.recorded.Dial network address (w, log) =
      ((net.Dial network address w).1,
        ((net.Dial network address w).2,
          log ++ [.dial network address (net.Dial network address w).1])) := rfl

theorem KafkaAdmin.recorded_Controller {σ : Type} (net : KafkaAdmin σ) (conn : Conn)
    (w : σ) (log : List AdminEvent) :
    net.recorded.Controller conn (w, log) =
      ((net.Controller conn w).1,
        ((net.Controller conn w).2, log ++ [.controller conn (net.Controller conn w).1])) := rfl

theorem KafkaAdmin.recorded_CreateTopics {σ : Type} (net : KafkaAdmin σ) (conn : Conn)
    (cfg : TopicConfig) (w : σ) (log : List AdminEvent) :
    net.recorded.CreateTopics conn cfg (w, log) =
      ((net.CreateTopics conn cfg w).1,
        ((net.CreateTopics conn cfg w).2,
          log ++ [.createTopics conn cfg (net.CreateTopics conn cfg w).1])) := rfl

theorem KafkaAdmin.recorded_Close {σ : Type} (net : KafkaAdmin σ) (conn : Conn)
    (w : σ) (log : List AdminEvent) :
    net.recorded.Close conn (w, log) =
      ((net.Close conn w).1, ((net.Close conn w).2, log ++ [.close conn])) := rfl

/-- The world the deferred closes leave is the one obtained by calling
`net.Close` on each connection in turn. -/
theorem runDeferred_world {σ : Type} (net : KafkaAdmin σ) (cs : List Conn) (w : σ) :
    (runDeferred net cs w).1 = cs.foldl (fun w c => (net.Close c w).2) w := by
  induction cs generalizing w with
  | nil => rfl
  | cons c cs ih => simp [runDeferred, ih]

theorem runDeferred_recorded {σ : Type} (net : KafkaAdmin σ) (cs : List Conn) (w : σ)
    (log : List AdminEvent) :
    runDeferred net.recorded cs (w, log) =
      (((runDeferred net cs w).1, log ++ (runDeferred net cs w).2), (runDeferred net cs w).2) := by
  induction cs generalizing w log with
  | nil => simp [runDeferred]
  | cons c cs ih => simp [runDeferred, KafkaAdmin.recorded_Close, ih]

/-- The loop run on the logging broker does what it does on the plain one, and
the calls logged are the calls of its trace. -/
theorem ensureLoop_recorded {σ : Type} (net : KafkaAdmin σ) (brokers : List String)
    (topics : List String) (w : σ) (log : List AdminEvent) :
    ensureLoop net.recorded brokers topics (w, log) =
      ⟨(ensureLoop net brokers topics w).result,
        ((ensureLoop net brokers topics w).world, log ++ (ensureLoop net brokers topics w).trace),
        (ensureLoop net brokers topics w).trace, (ensureLoop net brokers topics w).deferred⟩ := by
  induction topics generalizing w log with
  | nil => simp [ensureLoop]
  | cons topic rest ih =>
    cases hb : brokers[0]? with
    | none => simp [ensureLoop, hb]
    | some b =>
      rcases h1 : net.Dial "tcp" b w with ⟨err | conn, w1⟩
      · simp [ensureLoop, hb, KafkaAdmin.recorded_Dial, h1]
      · rcases h2 : net.Controller conn w1 with ⟨err | controller, w2⟩
        · simp [ensureLoop, hb, KafkaAdmin.recorded_Dial, KafkaAdmin.recorded_Controller, h1, h2]
        · rcases h3 : net.Dial "tcp" (controller.Host ++ ":" ++ toString controller.Port) w2
            with ⟨err | conn2, w3⟩
          · simp [ensureLoop, hb, KafkaAdmin.recorded_Dial, KafkaAdmin.recorded_Controller,
              h1, h2, h3]
          · rcases h4 : net.CreateTopics conn2 ⟨topic, 1, 1⟩ w3 with ⟨_ | err, w4⟩
            · simp [ensureLoop, hb, KafkaAdmin.recorded_Dial, KafkaAdmin.recorded_Controller,
                KafkaAdmin.recorded_CreateTopics, h1, h2, h3, h4, ih, AdminRun.after]
            · by_cases hc : strings.Contains err.Error alreadyExistsText = true
              · simp [ensureLoop, hb, KafkaAdmin.recorded_Dial, KafkaAdmin.recorded_Controller,
                  KafkaAdmin.recorded_CreateTopics, h1, h2, h3, h4, ih, AdminRun.after, hc]
              · simp [ensureLoop, hb, KafkaAdmin.recorded_Dial, KafkaAdmin.recorded_Controller,
                  KafkaAdmin.recorded_CreateTopics, h1, h2, h3, h4, hc]

/-- C11.  For every service, broker string, behaviour of the broker calls and
starting world, whatever the outcome of the call.  Run on a broker that logs
the calls it receives, `ensureKafkaTopics` returns what the plain run returns
and leaves the world of the plain run and a log equal to the trace of the plain
run: the trace lists the calls really made to the broker, `Close` included.
The world the call leaves is the world at the end of the loop after `Close` has
been called on each connection closed, in the order of the trace.  The calls
are calls that close nothing, followed by one close for each connection a dial
has opened, last opened first.  So the connections closed are the connections
opened, each closed as many times as it was opened (once an opening), and every
successful dial, the first dial of an iteration included, has its connection
closed before the call returns. -/
theorem ensureKafkaTopics_closes_connections {σ : Type} (svc : Service) (net : KafkaAdmin σ)
    (kafka_brokers : String) (w : σ) :
    (ensureKafkaTopics svc net.recorded kafka_brokers (w, [])).world =
      ((ensureKafkaTopics svc net kafka_brokers w).world,
        (ensureKafkaTopics svc net kafka_brokers w).trace) ∧
    (ensureKafkaTopics svc net.recorded kafka_brokers (w, [])).result =
      (ensureKafkaTopics svc net kafka_brokers w).result ∧
    (ensureKafkaTopics svc net kafka_brokers w).world =
      (closedConns (ensureKafkaTopics svc net kafka_brokers w).trace).foldl
        (fun w c => (net.Close c w).2)
        (ensureLoop net (strings.Split kafka_brokers ',') (topicsOf svc) w).world ∧
    (∃ calls, (ensureKafkaTopics svc net kafka_brokers w).trace =
        calls ++ (openedConns calls).reverse.map AdminEvent.close ∧
      closedConns calls = [] ∧
      openedConns calls = openedConns (ensureKafkaTopics svc net kafka_brokers w).trace) ∧
    closedConns (ensureKafkaTopics svc net kafka_brokers w).trace =
      (openedConns (ensureKafkaTopics svc net kafka_brokers w).trace).reverse ∧
    (∀ c, (closedConns (ensureKafkaTopics svc net kafka_brokers w).trace).count c =
      (openedConns (ensureKafkaTopics svc net kafka_brokers w).trace).count c) ∧
    (∀ network address c,
      AdminEvent.dial network address (.ok c) ∈ (ensureKafkaTopics svc net kafka_brokers w).trace →
      AdminEvent.close c ∈ (ensureKafkaTopics svc net kafka_brokers w).trace) := by
  obtain ⟨h1, h2⟩ := ensureLoop_deferred net (strings.Split kafka_brokers ',') (topicsOf svc) w
  have hrec : (ensureKafkaTopics svc net.recorded kafka_brokers (w, [])).world =
        ((ensureKafkaTopics svc net kafka_brokers w).world,
          (ensureKafkaTopics svc net kafka_brokers w).trace) ∧
      (ensureKafkaTopics svc net.recorded kafka_brokers (w, [])).result =
        (ensureKafkaTopics svc net kafka_brokers w).result := by
    simp [ensureKafkaTopics, ensureLoop_recorded, runDeferred_recorded]
  have hworld : (ensureKafkaTopics svc net kafka_brokers w).world =
      (ensureLoop net (strings.Split kafka_brokers ',') (topicsOf svc) w).deferred.reverse.foldl
        (fun w c => (net.Close c w).2)
        (ensureLoop net (strings.Split kafka_brokers ',') (topicsOf svc) w).world := by
    simp only [ensureKafkaTopics, runDeferred_world]
  refine ⟨hrec.1, hrec.2, ?_, ?_⟩
  · rw [hworld, ensureKafkaTopics_trace, closedConns_append, closedConns_closes, h2,
      List.nil_append]
  rw [ensureKafkaTopics_trace]
  generalize ensureLoop net (strings.Split kafka_brokers ',') (topicsOf svc) w = r at h1 h2 ⊢
  have ho : openedConns (r.trace ++ r.deferred.reverse.map AdminEvent.close) = r.deferred := by
    rw [openedConns_append, openedConns_closes, List.append_nil, h1]
  have hc : closedConns (r.trace ++ r.deferred.reverse.map AdminEvent.close) =
      r.deferred.reverse := by
    rw [closedConns_append, closedConns_closes, h2, List.nil_append]
  refine ⟨⟨r.trace, by rw [h1], h2, by rw [ho, h1]⟩, by rw [ho, hc], fun c => ?_,
    fun network address c hmem => ?_⟩
  · rw [ho, hc, List.count_reverse]
  · have hopen : c ∈ openedConns (r.trace ++ r.deferred.reverse.map AdminEvent.close) :=
      List.mem_filterMap.mpr ⟨_, hmem, rfl⟩
    rw [ho] at hopen
    exact List.mem_append_right _
      (List.mem_map.mpr ⟨c, List.mem_reverse.mpr hopen, rfl⟩)

/-- C11 on a concrete run of `pessoa`, on a broker that keeps track of its open
connections: the first iteration opens connections 0 and 1, the second opens
connection 2 and its redial is refused; the call returns that error, the broker
has received the closes of 2, 1 and 0, and no connection is left open. -/
theorem ensureKafkaTopics_closes_connections_witness :
    (ensureKafkaTopics .pessoa redialRefusedAdmin "localhost:9092" ⟨0, []⟩).result =
      .returned (some ⟨6, "connection refused"⟩) ∧
    openedConns (ensureKafkaTopics .pessoa redialRefusedAdmin "localhost:9092" ⟨0, []⟩).trace =
      [⟨0⟩, ⟨1⟩, ⟨2⟩] ∧
    closedConns (ensureKafkaTopics .pessoa redialRefusedAdmin.recorded "localhost:9092"
      (⟨0, []⟩, [])).world.2 = [⟨2⟩, ⟨1⟩, ⟨0⟩] ∧
    (ensureLoop redialRefusedAdmin (strings.Split "localhost:9092" ',') (topicsOf .pessoa)
      ⟨0, []⟩).world.openConns = [⟨2⟩, ⟨1⟩, ⟨0⟩] ∧
    (ensureKafkaTopics .pessoa redialRefusedAdmin "localhost:9092" ⟨0, []⟩).world.openConns = [] ∧
    closedConns (ensureKafkaTopics .pessoa redialRefusedAdmin "localhost:9092" ⟨0, []⟩).trace =
      (openedConns (ensureKafkaTopics .pessoa redialRefusedAdmin "localhost:9092" ⟨0, []⟩).trace).reverse :=
  ⟨by decide, by decide, by decide, by decide, by decide,
   (ensureKafkaTopics_closes_connections .pessoa redialRefusedAdmin "localhost:9092"
     ⟨0, []⟩).2.2.2.2.1⟩

end NebulaBack
